import Mathlib

/-!
Shallow embedding of the `google_keep_sync` Home Assistant integration
(`custom_components/google_keep_sync`): the Google Keep API sync layer
(`api.py`), the exponential-backoff retry decorator
(`exponential_backoff.py`), the reconciliation coordinator
(`coordinator.py`) and the to-do entity projection (`todo.py`),
together with theorems settling the specification claims.

Strings are modelled as lists of characters (`Str`), and the Python
string methods used by the code (`upper`, `lower`, `capitalize`,
`title`, `strip`, `<=`) are modelled character-wise over the ASCII
letters, matching their behaviour on the ASCII range.
-/

/-- Model of Python strings: a list of Unicode characters. -/
abbrev Str := List Char

/-- Python `str.upper` on one character (ASCII range): maps `a`..`z`
to `A`..`Z` and leaves every other character unchanged. -/
def pyCharUpper (c : Char) : Char :=
  if 97 ≤ c.toNat ∧ c.toNat ≤ 122 then Char.ofNat (c.toNat - 32) else c

/-- Python `str.lower` on one character (ASCII range): maps `A`..`Z`
to `a`..`z` and leaves every other character unchanged. -/
def pyCharLower (c : Char) : Char :=
  if 65 ≤ c.toNat ∧ c.toNat ≤ 90 then Char.ofNat (c.toNat + 32) else c

/-- ASCII letter test (model of Python `str.isalpha` on the ASCII range),
used by the `title`-case word-boundary tracking. -/
def isAsciiAlpha (c : Char) : Bool :=
  (65 ≤ c.toNat && c.toNat ≤ 90) || (97 ≤ c.toNat && c.toNat ≤ 122)

/-- Python `str.upper`. -/
def pyUpper (s : Str) : Str := s.map pyCharUpper

/-- Python `str.lower`. -/
def pyLower (s : Str) : Str := s.map pyCharLower

/-- Python `str.capitalize`: first character upper-cased, the rest
lower-cased. -/
def pyCapitalize : Str → Str
  | [] => []
  | c :: rest => pyCharUpper c :: rest.map pyCharLower

/-- Helper for Python `str.title`: the flag records whether the previous
character was a letter (if so the current letter is lower-cased,
otherwise it starts a word and is upper-cased). -/
def pyTitleAux : Bool → Str → Str
  | _, [] => []
  | prevAlpha, c :: rest =>
      (if isAsciiAlpha c then
        (if prevAlpha then pyCharLower c else pyCharUpper c)
      else c) :: pyTitleAux (isAsciiAlpha c) rest

/-- Python `str.title`. -/
def pyTitle (s : Str) : Str := pyTitleAux false s

/-- Whitespace characters removed by Python `str.strip` (ASCII range). -/
def isPySpace (c : Char) : Bool :=
  c = ' ' || c = '\t' || c = '\n' || c = '\r' || c = '\x0b' || c = '\x0c'

/-- Python `str.strip`: drop whitespace from both ends. -/
def pyStrip (s : Str) : Str :=
  ((s.dropWhile isPySpace).reverse.dropWhile isPySpace).reverse

/-- Python string comparison `s <= t`: lexicographic by code point,
with a proper prefix comparing smaller. -/
def strLe : Str → Str → Bool
  | [], _ => true
  | _ :: _, [] => false
  | a :: as, b :: bs => if a < b then true else if b < a then false else strLe as bs

-- Supporting lemmas about the character-level case maps.

theorem char_toNat_ofNat_small {n : Nat} (h : n < 0xd800) :
    (Char.ofNat n).toNat = n := by
  rw [Char.ofNat, dif_pos (Or.inl h)]
  simp [Char.ofNatAux, Char.toNat, UInt32.toNat]

theorem pyCharUpper_toNat (c : Char) :
    (pyCharUpper c).toNat =
      if 97 ≤ c.toNat ∧ c.toNat ≤ 122 then c.toNat - 32 else c.toNat := by
  unfold pyCharUpper
  by_cases h : 97 ≤ c.toNat ∧ c.toNat ≤ 122
  · rw [if_pos h, if_pos h, char_toNat_ofNat_small (by omega)]
  · rw [if_neg h, if_neg h]

theorem pyCharLower_toNat (c : Char) :
    (pyCharLower c).toNat =
      if 65 ≤ c.toNat ∧ c.toNat ≤ 90 then c.toNat + 32 else c.toNat := by
  unfold pyCharLower
  by_cases h : 65 ≤ c.toNat ∧ c.toNat ≤ 90
  · rw [if_pos h, if_pos h, char_toNat_ofNat_small (by omega)]
  · rw [if_neg h, if_neg h]

theorem pyCharUpper_idem (c : Char) : pyCharUpper (pyCharUpper c) = pyCharUpper c := by
  unfold pyCharUpper
  by_cases h : 97 ≤ c.toNat ∧ c.toNat ≤ 122
  · rw [if_pos h]
    have hn : (Char.ofNat (c.toNat - 32)).toNat = c.toNat - 32 :=
      char_toNat_ofNat_small (by omega)
    rw [if_neg (by omega)]
  · rw [if_neg h, if_neg h]

theorem pyCharLower_idem (c : Char) : pyCharLower (pyCharLower c) = pyCharLower c := by
  unfold pyCharLower
  by_cases h : 65 ≤ c.toNat ∧ c.toNat ≤ 90
  · rw [if_pos h]
    have hn : (Char.ofNat (c.toNat + 32)).toNat = c.toNat + 32 :=
      char_toNat_ofNat_small (by omega)
    rw [if_neg (by omega)]
  · rw [if_neg h, if_neg h]

theorem isAsciiAlpha_eq_decide (c : Char) :
    isAsciiAlpha c =
      decide ((65 ≤ c.toNat ∧ c.toNat ≤ 90) ∨ (97 ≤ c.toNat ∧ c.toNat ≤ 122)) := by
  simp [isAsciiAlpha, Bool.decide_and, Bool.decide_or]

theorem isAsciiAlpha_pyCharUpper (c : Char) :
    isAsciiAlpha (pyCharUpper c) = isAsciiAlpha c := by
  rw [isAsciiAlpha_eq_decide, isAsciiAlpha_eq_decide]
  apply decide_eq_decide.mpr
  have h := pyCharUpper_toNat c
  by_cases hc : 97 ≤ c.toNat ∧ c.toNat ≤ 122
  · rw [if_pos hc] at h
    rw [h]; omega
  · rw [if_neg hc] at h
    rw [h]

theorem isAsciiAlpha_pyCharLower (c : Char) :
    isAsciiAlpha (pyCharLower c) = isAsciiAlpha c := by
  rw [isAsciiAlpha_eq_decide, isAsciiAlpha_eq_decide]
  apply decide_eq_decide.mpr
  have h := pyCharLower_toNat c
  by_cases hc : 65 ≤ c.toNat ∧ c.toNat ≤ 90
  · rw [if_pos hc] at h
    rw [h]; omega
  · rw [if_neg hc] at h
    rw [h]

/-! ## Data model: Google Keep lists and items (gkeepapi nodes as seen by api.py) -/

/-- A Google Keep list item (`gkeepapi.node.ListItem`): id, text, checked. -/
structure ListItem where
  id : Str
  text : Str
  checked : Bool
  deriving DecidableEq, Repr

/-- A Google Keep list (`gkeepapi.node.List`): id, title and its items. -/
structure KeepList where
  id : Str
  title : Str
  items : List ListItem
  deriving DecidableEq, Repr

/-- The Keep client's in-memory cache of lists; `keep.get` looks a list
up by id. -/
def keepGet (state : List KeepList) (list_id : Str) : Option KeepList :=
  state.find? (fun l => l.id == list_id)

/-- In-place mutation of a cached list: the list object with the same id
is replaced by its mutated version. -/
def stateUpdate (state : List KeepList) (l : KeepList) : List KeepList :=
  state.map (fun x => if x.id == l.id then l else x)

/-! ## api.py: ListCase and the case / sort helpers -/

/-- `ListCase` enumeration from `api.py`. -/
inductive ListCase where
  | no_change
  | upper
  | lower
  | sentence
  | title
  deriving DecidableEq, Repr

/-- `GoogleKeepAPI.change_case`: transform text according to the case type. -/
def change_case (text : Str) (case_type : ListCase) : Str :=
  if case_type = ListCase.upper then pyUpper text
  else if case_type = ListCase.lower then pyLower text
  else if case_type = ListCase.sentence then pyCapitalize text
  else if case_type = ListCase.title then pyTitle text
  else text

/-- `GoogleKeepAPI.change_list_case`: rewrite every item's text via
`change_case`; returns the rewritten items and whether any text changed. -/
def change_list_case (items : List ListItem) (case_type : ListCase) :
    List ListItem × Bool :=
  match items with
  | [] => ([], false)
  | item :: rest =>
      let new_text := change_case item.text case_type
      let (rs, ch) := change_list_case rest case_type
      ({ item with text := new_text } :: rs, (!(new_text == item.text)) || ch)

/-- `GoogleKeepAPI.is_list_sorted`: all adjacent pairs of items are in
case-insensitive ascending order. -/
def is_list_sorted (items : List ListItem) : Bool :=
  match items with
  | [] => true
  | [_] => true
  | a :: b :: rest =>
      strLe (pyLower a.text) (pyLower b.text) && is_list_sorted (b :: rest)

/-- Stable insertion into a list sorted by lower-cased text. -/
def insertByLower (x : ListItem) : List ListItem → List ListItem
  | [] => [x]
  | y :: ys =>
      if strLe (pyLower x.text) (pyLower y.text) then x :: y :: ys
      else y :: insertByLower x ys

/-- gkeepapi `List.sort_items` with key `lambda item: item.text.lower()`:
a stable sort of the items by their lower-cased text. -/
def sort_items (items : List ListItem) : List ListItem :=
  items.foldr insertByLower []

/-! ## api.py: async_sync_data -/

/-- Everything observable about one `async_sync_data` call: the returned
pair (`syncedLists`, `deletedListIds`), the mutated Keep cache, the new
last-known-good cache, and which remote mutations were performed
(case rewrites, sort calls, the forced immediate resync). -/
structure SyncOutcome where
  syncedLists : List KeepList
  deletedListIds : List Str
  state : List KeepList
  lastSynced : List KeepList
  caseChangedListIds : List Str
  sortedListIds : List Str
  forcedResync : Bool
  deriving DecidableEq, Repr

/-- Accumulator for the `for list_id in lists_to_sync` loop. -/
structure LoopAcc where
  state : List KeepList
  syncedLists : List KeepList
  deletedListIds : List Str
  caseChangedListIds : List Str
  sortedListIds : List Str
  listsChanged : Bool
  deriving DecidableEq, Repr

/-- The per-list body of the `async_sync_data` loop once `keep.get`
returned a list: the optional case rewrite followed by the conditional
sort.  Returns the mutated list, whether the case rewrite changed any
text, and whether the sort mutation was invoked. -/
def processFound (sort_lists : Bool) (case_type : ListCase)
    (keep_list : KeepList) : KeepList × Bool × Bool :=
  let caseResult :=
    if case_type ≠ ListCase.no_change then
      change_list_case keep_list.items case_type
    else (keep_list.items, false)
  let l1 : KeepList := { keep_list with items := caseResult.1 }
  if sort_lists then
    let unchecked := l1.items.filter (fun i => !i.checked)
    if !(is_list_sorted unchecked) then
      ({ l1 with items := sort_items l1.items }, caseResult.2, true)
    else (l1, caseResult.2, false)
  else (l1, caseResult.2, false)

/-- One iteration of the `async_sync_data` loop body for a single
requested list id. -/
def syncStep (sort_lists : Bool) (case_type : ListCase) (acc : LoopAcc)
    (list_id : Str) : LoopAcc :=
  match keepGet acc.state list_id with
  | none => { acc with deletedListIds := acc.deletedListIds ++ [list_id] }
  | some keep_list =>
      let pr := processFound sort_lists case_type keep_list
      { state := stateUpdate acc.state pr.1
        syncedLists := acc.syncedLists ++ [pr.1]
        deletedListIds := acc.deletedListIds
        caseChangedListIds :=
          acc.caseChangedListIds ++ (if pr.2.1 then [list_id] else [])
        sortedListIds :=
          acc.sortedListIds ++ (if pr.2.2 then [list_id] else [])
        listsChanged := acc.listsChanged || pr.2.1 || pr.2.2 }

/-- `GoogleKeepAPI.async_sync_data`.  `syncResult` is the outcome of the
retried `_sync_with_google_keep()` call (`Except.error e` when it raised
after exhausting its retries); `lastSynced` is the cached
`self._last_synced`; `state` is the Keep client's cached lists.  The
result is always `Except.ok`: the `except` clause catches the exception
and falls back to `(self._last_synced, [])` without updating the cache. -/
def async_sync_data (syncResult : Except Str Unit) (lastSynced : List KeepList)
    (state : List KeepList) (lists_to_sync : List Str) (sort_lists : Bool)
    (case_type : ListCase) : Except Str SyncOutcome :=
  match syncResult with
  | .error _ =>
      .ok { syncedLists := lastSynced, deletedListIds := [], state := state,
            lastSynced := lastSynced, caseChangedListIds := [],
            sortedListIds := [], forcedResync := false }
  | .ok _ =>
      let acc := lists_to_sync.foldl (syncStep sort_lists case_type)
        { state := state, syncedLists := [], deletedListIds := [],
          caseChangedListIds := [], sortedListIds := [], listsChanged := false }
      .ok { syncedLists := acc.syncedLists, deletedListIds := acc.deletedListIds,
            state := acc.state, lastSynced := acc.syncedLists,
            caseChangedListIds := acc.caseChangedListIds,
            sortedListIds := acc.sortedListIds, forcedResync := acc.listsChanged }

/-! ## exponential_backoff.py -/

/-- The retry loop of the `exponential_backoff` decorator's `wrapper`.
`f attempt` is the outcome of calling the wrapped function on the given
attempt number; `fuel` counts the remaining loop iterations
(`max_retries - attempt`).  Returns the wrapper's outcome (`none` if the
loop ran out without returning, i.e. `max_retries = 0`), the list of
sleep durations performed, and the list of attempt numbers on which the
wrapped function was invoked. -/
def backoffAux {α ε : Type} (f : Nat → Except ε α) (base_delay backoff_factor : ℚ) :
    Nat → Nat → Option (Except ε α) × List ℚ × List Nat
  | _, 0 => (none, [], [])
  | attempt, fuel + 1 =>
      match f attempt with
      | .ok a => (some (.ok a), [], [attempt])
      | .error e =>
          if fuel = 0 then (some (.error e), [], [attempt])
          else
            let wait_time := base_delay * backoff_factor ^ attempt
            let r := backoffAux f base_delay backoff_factor (attempt + 1) fuel
            (r.1, wait_time :: r.2.1, attempt :: r.2.2)

/-- The `exponential_backoff(max_retries, base_delay, backoff_factor)`
wrapper applied to a function whose attempt-indexed behaviour is `f`. -/
def exponential_backoff_run {α ε : Type} (max_retries : Nat)
    (base_delay backoff_factor : ℚ) (f : Nat → Except ε α) :
    Option (Except ε α) × List ℚ × List Nat :=
  backoffAux f base_delay backoff_factor 0 max_retries

/-- `GoogleKeepAPI._sync_with_google_keep` is the retried sync call:
the decorator applied with `max_retries=5, base_delay=1.0,
backoff_factor=3.0`. -/
def sync_with_google_keep_run {α ε : Type} (f : Nat → Except ε α) :
    Option (Except ε α) × List ℚ × List Nat :=
  exponential_backoff_run 5 1 3 f

/-! ## coordinator.py: snapshots and the diff -/

/-- `TodoItem` namedtuple from `coordinator.py`. -/
structure CoTodoItem where
  summary : Str
  checked : Bool
  deriving DecidableEq, Repr

/-- `TodoList` namedtuple from `coordinator.py`; `items` is a Python
dict keyed by item id (insertion-ordered, unique keys). -/
structure CoTodoList where
  name : Str
  items : List (Str × CoTodoItem)
  deriving DecidableEq, Repr

/-- Python dict insertion: overwrite in place if the key exists
(keeping its position), else append. -/
def dictInsert {α : Type} (d : List (Str × α)) (k : Str) (v : α) : List (Str × α) :=
  if d.any (fun p => p.1 == k) then
    d.map (fun p => if p.1 == k then (k, v) else p)
  else d ++ [(k, v)]

/-- Python `k in d`. -/
def dictContains {α : Type} (d : List (Str × α)) (k : Str) : Bool :=
  d.any (fun p => p.1 == k)

/-- Python `d[k]` as an option. -/
def dictGet {α : Type} (d : List (Str × α)) (k : Str) : Option α :=
  (d.find? (fun p => p.1 == k)).map (fun p => p.2)

/-- The item dict built by `_parse_gkeep_data_dict` for one list:
only the unchecked items, keyed by item id. -/
def parseItemsDict (items : List ListItem) : List (Str × CoTodoItem) :=
  (items.filter (fun i => !i.checked)).foldl
    (fun d i => dictInsert d i.id ⟨i.text, i.checked⟩) []

/-- `GoogleKeepSyncCoordinator._parse_gkeep_data_dict` applied to the
coordinator's cached list set. -/
def parse_gkeep_data_dict (data : List KeepList) : List (Str × CoTodoList) :=
  data.foldl (fun d l => dictInsert d l.id ⟨l.title, parseItemsDict l.items⟩) []

/-! ## Entity registry model (homeassistant.helpers.entity_registry) -/

/-- One entity registration: the synthetic unique id, the entity id,
the user-set name (`None` when not overridden) and the original name. -/
structure RegistryEntry where
  uniqueId : Str
  entityId : Str
  name : Option Str
  originalName : Option Str
  deriving DecidableEq, Repr

abbrev Registry := List RegistryEntry

/-- `DOMAIN` from `const.py`. -/
def domainStr : Str := "google_keep_sync".toList

/-- The synthetic unique id `f"{DOMAIN}.list.{list_id}"`. -/
def listUniqueId (list_id : Str) : Str := domainStr ++ ".list.".toList ++ list_id

/-- `entity_registry.async_get_entity_id(TODO, DOMAIN, unique_id)`. -/
def async_get_entity_id (reg : Registry) (uid : Str) : Option Str :=
  (reg.find? (fun e => e.uniqueId == uid)).map (fun e => e.entityId)

/-- `entity_registry.async_get(entity_id)`. -/
def async_get_entity (reg : Registry) (eid : Str) : Option RegistryEntry :=
  reg.find? (fun e => e.entityId == eid)

/-- `entity_registry.async_update_entity(entity_id, original_name=...)`. -/
def async_update_entity_original_name (reg : Registry) (eid : Str)
    (newName : Str) : Registry :=
  reg.map (fun e =>
    if e.entityId == eid then { e with originalName := some newName } else e)

/-- `GoogleKeepSyncCoordinator._get_new_items_added`: for each list of
the updated snapshot that is also in the original snapshot, emit one
`(summary, looked-up entity id)` record per item id present in the
updated list's dict but absent from the original list's dict.
(The Python code checks `updated_list_id not in original_lists` and then
indexes; here the membership test and the index are the single
`dictGet`, which is `some` exactly when `dictContains` holds.) -/
def get_new_items_added (reg : Registry)
    (original_lists updated_lists : List (Str × CoTodoList)) :
    List (Str × Option Str) :=
  updated_lists.foldl (fun acc p =>
    match dictGet original_lists p.1 with
    | none => acc
    | some original_list =>
        p.2.items.foldl (fun acc2 q =>
          if !(dictContains original_list.items q.1) then
            acc2 ++ [(q.2.summary, async_get_entity_id reg (listUniqueId p.1))]
          else acc2) acc) []

/-! ## coordinator.py: _update_entity_names -/

/-- The mutable state touched by `_update_entity_names`: the entity
registry and the coordinator's `_user_named_entities` set. -/
structure NameUpdateState where
  reg : Registry
  userNamed : List Str
  deriving DecidableEq, Repr

/-- Python truthiness of the registry `name` field (`if entity.name:`). -/
def nameTruthy : Option Str → Bool
  | none => false
  | some s => !(s == [])

/-- One iteration of the `for gkeep_list in synced_lists` loop of
`_update_entity_names`. -/
def update_entity_names_step (listPfx : Str) (st : NameUpdateState)
    (gkeep_list : KeepList) : NameUpdateState :=
  match async_get_entity_id st.reg (listUniqueId gkeep_list.id) with
  | none => st
  | some entity_id =>
      if entity_id == [] then st
      else
        match async_get_entity st.reg entity_id with
        | none => st
        | some entity =>
            let new_name := pyStrip (listPfx ++ [' '] ++ gkeep_list.title)
            if nameTruthy entity.name then
              { st with userNamed :=
                  if entity_id ∈ st.userNamed then st.userNamed
                  else st.userNamed ++ [entity_id] }
            else
              if !(entity.originalName == some new_name) then
                { st with reg :=
                    async_update_entity_original_name st.reg entity_id new_name }
              else st

/-- `GoogleKeepSyncCoordinator._update_entity_names`. -/
def update_entity_names (listPfx : Str) (reg : Registry) (userNamed : List Str)
    (synced_lists : List KeepList) : NameUpdateState :=
  synced_lists.foldl (update_entity_names_step listPfx) ⟨reg, userNamed⟩

/-! ## todo.py: entity-projection mutations -/

/-- Observable steps of an entity-projection mutation method. -/
inductive EntityAction where
  | apiMutation
  | logError
  | refresh
  deriving DecidableEq, Repr

/-- `GoogleKeepTodoListEntity.async_update_todo_item`: `try` the API
mutation, `except` log the error, `finally` request a coordinator
refresh.  `apiResult` is the outcome of the underlying API call; the
first component is what the method raises to its caller. -/
def entity_update_todo_item (apiResult : Except Str Unit) :
    Except Str Unit × List EntityAction :=
  let tryPart :=
    match apiResult with
    | .ok _ => [EntityAction.apiMutation]
    | .error _ => [EntityAction.apiMutation, EntityAction.logError]
  (Except.ok (), tryPart ++ [EntityAction.refresh])

/-- `GoogleKeepTodoListEntity.async_create_todo_item`: same
`try`/`except`/`finally` shape as the update method. -/
def entity_create_todo_item (apiResult : Except Str Unit) :
    Except Str Unit × List EntityAction :=
  let tryPart :=
    match apiResult with
    | .ok _ => [EntityAction.apiMutation]
    | .error _ => [EntityAction.apiMutation, EntityAction.logError]
  (Except.ok (), tryPart ++ [EntityAction.refresh])

/-- `GoogleKeepTodoListEntity.async_delete_todo_items`: each deletion is
tried with its own `try`/`except`; the refresh request follows the loop
unconditionally. -/
def entity_delete_todo_items (uids : List Str)
    (apiResult : Str → Except Str Unit) : Except Str Unit × List EntityAction :=
  (Except.ok (),
    (uids.map (fun u =>
      match apiResult u with
      | .ok _ => [EntityAction.apiMutation]
      | .error _ => [EntityAction.apiMutation, EntityAction.logError])).flatten
    ++ [EntityAction.refresh])

/-! ## api.py: async_update_todo_item -/

/-- The `for item in keep_list.items` loop of
`GoogleKeepAPI.async_update_todo_item`: on the first item with matching
id, set `item.text` when `new_text is not None` and `item.checked` when
`checked is not None`, then `break` (later items untouched). -/
def updateItems (item_id : Str) (new_text : Option Str) (checked : Option Bool) :
    List ListItem → List ListItem
  | [] => []
  | item :: rest =>
      if item.id == item_id then
        { item with
          text := match new_text with | some t => t | none => item.text
          checked := match checked with | some b => b | none => item.checked } :: rest
      else item :: updateItems item_id new_text checked rest

/-- `GoogleKeepAPI.async_update_todo_item`.  The Python signature is
`(list_id, item_id, new_text: str | None = None, checked: bool = False)`;
`checked` is modelled as `Option Bool` so that the `checked is not None`
guard is visible — a call respecting the `bool` annotation always passes
`some b`, and the default is `some false`. -/
def api_async_update_todo_item (state : List KeepList) (list_id item_id : Str)
    (new_text : Option Str) (checked : Option Bool) : List KeepList :=
  match keepGet state list_id with
  | none => state
  | some keep_list =>
      stateUpdate state
        { keep_list with items := updateItems item_id new_text checked keep_list.items }

/-! ## Helper lemmas about the Keep cache and the sync loop -/

theorem find?_map_comm {α : Type} (f : α → α) (p : α → Bool)
    (hf : ∀ x, p (f x) = p x) (s : List α) :
    (s.map f).find? p = (s.find? p).map f := by
  induction s with
  | nil => rfl
  | cons x xs ih =>
      simp only [List.map_cons, List.find?, hf x]
      cases h : p x <;> simp [h, ih]

theorem processFound_id (sort_lists : Bool) (case_type : ListCase)
    (keep_list : KeepList) :
    (processFound sort_lists case_type keep_list).1.id = keep_list.id := by
  simp only [processFound]
  split <;> split <;> try split
  all_goals rfl

theorem stateUpdate_id_pred (l : KeepList) (lid : Str) (x : KeepList) :
    ((fun y : KeepList => y.id == lid) (if x.id == l.id then l else x)) =
      (fun y : KeepList => y.id == lid) x := by
  by_cases h : (x.id == l.id) = true
  · have hx : x.id = l.id := by simpa using h
    simp [h, hx]
  · simp [h]

theorem keepGet_stateUpdate (s : List KeepList) (l : KeepList) (lid : Str) :
    keepGet (stateUpdate s l) lid =
      (keepGet s lid).map (fun x => if x.id == l.id then l else x) := by
  unfold keepGet stateUpdate
  exact find?_map_comm _ _ (stateUpdate_id_pred l lid) s

theorem keepGet_stateUpdate_isSome (s : List KeepList) (l : KeepList) (lid : Str) :
    (keepGet (stateUpdate s l) lid).isSome = (keepGet s lid).isSome := by
  rw [keepGet_stateUpdate]
  cases keepGet s lid <;> rfl

theorem syncStep_state_isSome (sort_lists : Bool) (case_type : ListCase)
    (acc : LoopAcc) (i lid : Str) :
    (keepGet (syncStep sort_lists case_type acc i).state lid).isSome =
      (keepGet acc.state lid).isSome := by
  unfold syncStep
  cases h : keepGet acc.state i with
  | none => rfl
  | some keep_list => exact keepGet_stateUpdate_isSome _ _ _

theorem syncStep_deleted (sort_lists : Bool) (case_type : ListCase)
    (acc : LoopAcc) (i : Str) :
    (syncStep sort_lists case_type acc i).deletedListIds =
      acc.deletedListIds ++ (if (keepGet acc.state i).isNone then [i] else []) := by
  unfold syncStep
  cases h : keepGet acc.state i with
  | none => simp
  | some keep_list => simp

theorem syncStep_synced_ids (sort_lists : Bool) (case_type : ListCase)
    (acc : LoopAcc) (i : Str) :
    (syncStep sort_lists case_type acc i).syncedLists.map (fun l => l.id) =
      acc.syncedLists.map (fun l => l.id) ++
        (if (keepGet acc.state i).isSome then [i] else []) := by
  unfold syncStep
  cases h : keepGet acc.state i with
  | none => simp
  | some keep_list =>
      have hid : keep_list.id = i := by
        have := List.find?_some h
        simpa using this
      simp [processFound_id, hid]

theorem isNone_eq_bang_isSome {α : Type} (o : Option α) : o.isNone = !o.isSome := by
  cases o <;> rfl

theorem syncLoop_spec (sort_lists : Bool) (case_type : ListCase) :
    ∀ (ids : List Str) (acc : LoopAcc),
      (ids.foldl (syncStep sort_lists case_type) acc).deletedListIds =
          acc.deletedListIds ++ ids.filter (fun i => (keepGet acc.state i).isNone) ∧
      (ids.foldl (syncStep sort_lists case_type) acc).syncedLists.map (fun l => l.id) =
          acc.syncedLists.map (fun l => l.id) ++
            ids.filter (fun i => (keepGet acc.state i).isSome) ∧
      (∀ lid,
        (keepGet (ids.foldl (syncStep sort_lists case_type) acc).state lid).isSome =
          (keepGet acc.state lid).isSome) := by
  intro ids
  induction ids with
  | nil =>
      intro acc
      exact ⟨by simp, by simp, fun lid => rfl⟩
  | cons i rest ih =>
      intro acc
      simp only [List.foldl_cons]
      obtain ⟨hdel, hsync, hstate⟩ := ih (syncStep sort_lists case_type acc i)
      have hSomeEq : ∀ x,
          (keepGet (syncStep sort_lists case_type acc i).state x).isSome =
            (keepGet acc.state x).isSome :=
        syncStep_state_isSome sort_lists case_type acc i
      have hfilterS : rest.filter
            (fun x => (keepGet (syncStep sort_lists case_type acc i).state x).isSome) =
          rest.filter (fun x => (keepGet acc.state x).isSome) :=
        List.filter_congr (fun x _ => hSomeEq x)
      have hfilterN : rest.filter
            (fun x => (keepGet (syncStep sort_lists case_type acc i).state x).isNone) =
          rest.filter (fun x => (keepGet acc.state x).isNone) := by
        apply List.filter_congr
        intro x _
        rw [isNone_eq_bang_isSome, isNone_eq_bang_isSome, hSomeEq x]
      refine ⟨?_, ?_, ?_⟩
      · rw [hdel, hfilterN, syncStep_deleted, List.filter_cons]
        by_cases h : (keepGet acc.state i).isNone = true
        · simp [h]
        · simp [h]
      · rw [hsync, hfilterS, syncStep_synced_ids, List.filter_cons]
        by_cases h : (keepGet acc.state i).isSome = true
        · simp [h]
        · simp [h]
      · intro lid
        rw [hstate lid, hSomeEq lid]

/-! ## Claim theorems: C1, C2 -/

/-- C1: if the retried remote `sync()` call raises after exhausting all
retries, `async_sync_data` catches the exception and returns the
previously cached last-known-good list set paired with an empty
disappeared-id list (never the raw exception, and no id reported
disappeared); hence when `sync()` fails on the second of two consecutive
invocations, the second invocation's returned list set equals the first
invocation's result and its disappeared-id list is empty. -/
theorem C1_sync_failure_fallback :
    (∀ (e : Str) (lastSynced state : List KeepList) (ids : List Str)
        (sort_lists : Bool) (case_type : ListCase),
      async_sync_data (.error e) lastSynced state ids sort_lists case_type =
        .ok { syncedLists := lastSynced, deletedListIds := [], state := state,
              lastSynced := lastSynced, caseChangedListIds := [],
              sortedListIds := [], forcedResync := false }) ∧
    (∀ (e : Str) (last0 state0 state1 : List KeepList) (ids : List Str)
        (sort_lists : Bool) (case_type : ListCase) (r1 : SyncOutcome),
      async_sync_data (.ok ()) last0 state0 ids sort_lists case_type = .ok r1 →
      ∃ r2 : SyncOutcome,
        async_sync_data (.error e) r1.lastSynced state1 ids sort_lists case_type =
          .ok r2 ∧ r2.syncedLists = r1.syncedLists ∧ r2.deletedListIds = []) := by
  constructor
  · intro e lastSynced state ids sort_lists case_type
    rfl
  · intro e last0 state0 state1 ids sort_lists case_type r1 h1
    unfold async_sync_data at h1
    injection h1 with h2
    subst h2
    exact ⟨_, rfl, rfl, rfl⟩

/-- Witness for C1: concrete two-invocation run in which the second
sync fails; the second result repeats the first result's list set with
no disappeared ids. -/
theorem C1_sync_failure_fallback_witness :
    ∃ r2 : SyncOutcome,
      async_sync_data (.error "boom".toList)
          (SyncOutcome.lastSynced
            { syncedLists := [], deletedListIds := ["B".toList], state := [],
              lastSynced := [], caseChangedListIds := [], sortedListIds := [],
              forcedResync := false })
          [] ["B".toList] true ListCase.upper = .ok r2 ∧
      r2.syncedLists = SyncOutcome.syncedLists
          { syncedLists := [], deletedListIds := ["B".toList], state := [],
            lastSynced := [], caseChangedListIds := [], sortedListIds := [],
            forcedResync := false } ∧
      r2.deletedListIds = [] :=
  C1_sync_failure_fallback.2 "boom".toList [] [] [] ["B".toList] true ListCase.upper
    { syncedLists := [], deletedListIds := ["B".toList], state := [],
      lastSynced := [], caseChangedListIds := [], sortedListIds := [],
      forcedResync := false } (by rfl)

/-- C2: when the remote fetch succeeds, `async_sync_data` partitions the
requested ids exactly: the disappeared list is the requested ids whose
`get` returns None (in order), the returned lists' ids are the requested
ids whose `get` resolves (in order), and returned-count plus
disappeared-count equals requested-count; concretely, for requested ids
`[A, B]` with only `A` present, the result is `(lists=[A's data],
disappeared=[B])` — the missing id does not abort processing. -/
theorem C2_sync_partition :
    (∀ (last state : List KeepList) (ids : List Str) (sort_lists : Bool)
        (case_type : ListCase) (r : SyncOutcome),
      async_sync_data (.ok ()) last state ids sort_lists case_type = .ok r →
        r.deletedListIds = ids.filter (fun i => (keepGet state i).isNone) ∧
        r.syncedLists.map (fun l => l.id) =
          ids.filter (fun i => (keepGet state i).isSome) ∧
        r.syncedLists.length + r.deletedListIds.length = ids.length) ∧
    (async_sync_data (.ok ()) []
        [⟨"A".toList, "TitleA".toList, []⟩]
        ["A".toList, "B".toList] false ListCase.no_change =
      .ok { syncedLists := [⟨"A".toList, "TitleA".toList, []⟩],
            deletedListIds := ["B".toList],
            state := [⟨"A".toList, "TitleA".toList, []⟩],
            lastSynced := [⟨"A".toList, "TitleA".toList, []⟩],
            caseChangedListIds := [], sortedListIds := [],
            forcedResync := false }) := by
  constructor
  · intro last state ids sort_lists case_type r h1
    unfold async_sync_data at h1
    injection h1 with h2
    subst h2
    obtain ⟨hdel, hsync, _⟩ := syncLoop_spec sort_lists case_type ids
      { state := state, syncedLists := [], deletedListIds := [],
        caseChangedListIds := [], sortedListIds := [], listsChanged := false }
    refine ⟨by simpa using hdel, by simpa using hsync, ?_⟩
    have hlen1 :
        (ids.foldl (syncStep sort_lists case_type)
          { state := state, syncedLists := [], deletedListIds := [],
            caseChangedListIds := [], sortedListIds := [],
            listsChanged := false }).syncedLists.length =
        (ids.filter (fun i => (keepGet state i).isSome)).length := by
      have := congrArg List.length hsync
      simpa using this
    have hlen2 :
        (ids.foldl (syncStep sort_lists case_type)
          { state := state, syncedLists := [], deletedListIds := [],
            caseChangedListIds := [], sortedListIds := [],
            listsChanged := false }).deletedListIds.length =
        (ids.filter (fun i => (keepGet state i).isNone)).length := by
      have := congrArg List.length hdel
      simpa using this
    rw [hlen1, hlen2]
    have hsplit := List.length_eq_length_filter_add
      (l := ids) (fun i => (keepGet state i).isSome)
    have hcong : ids.filter (fun i => !(keepGet state i).isSome) =
        ids.filter (fun i => (keepGet state i).isNone) :=
      List.filter_congr (fun x _ => (isNone_eq_bang_isSome (keepGet state x)).symm)
    rw [hcong] at hsplit
    omega
  · rfl

/-- Witness for C2: the partition equalities evaluated on the concrete
`{A, B}` request against a cache holding only `A`. -/
theorem C2_sync_partition_witness :
    SyncOutcome.deletedListIds
        { syncedLists := [⟨"A".toList, "TitleA".toList, []⟩],
          deletedListIds := ["B".toList],
          state := [⟨"A".toList, "TitleA".toList, []⟩],
          lastSynced := [⟨"A".toList, "TitleA".toList, []⟩],
          caseChangedListIds := [], sortedListIds := [],
          forcedResync := false } =
      (["A".toList, "B".toList].filter
        (fun i => (keepGet [⟨"A".toList, "TitleA".toList, []⟩] i).isNone)) ∧
    (SyncOutcome.syncedLists
        { syncedLists := [⟨"A".toList, "TitleA".toList, []⟩],
          deletedListIds := ["B".toList],
          state := [⟨"A".toList, "TitleA".toList, []⟩],
          lastSynced := [⟨"A".toList, "TitleA".toList, []⟩],
          caseChangedListIds := [], sortedListIds := [],
          forcedResync := false }).map (fun l => l.id) =
      (["A".toList, "B".toList].filter
        (fun i => (keepGet [⟨"A".toList, "TitleA".toList, []⟩] i).isSome)) ∧
    (SyncOutcome.syncedLists
        { syncedLists := [⟨"A".toList, "TitleA".toList, []⟩],
          deletedListIds := ["B".toList],
          state := [⟨"A".toList, "TitleA".toList, []⟩],
          lastSynced := [⟨"A".toList, "TitleA".toList, []⟩],
          caseChangedListIds := [], sortedListIds := [],
          forcedResync := false }).length +
      (SyncOutcome.deletedListIds
        { syncedLists := [⟨"A".toList, "TitleA".toList, []⟩],
          deletedListIds := ["B".toList],
          state := [⟨"A".toList, "TitleA".toList, []⟩],
          lastSynced := [⟨"A".toList, "TitleA".toList, []⟩],
          caseChangedListIds := [], sortedListIds := [],
          forcedResync := false }).length = ["A".toList, "B".toList].length :=
  C2_sync_partition.1 [] [⟨"A".toList, "TitleA".toList, []⟩]
    ["A".toList, "B".toList] false ListCase.no_change
    { syncedLists := [⟨"A".toList, "TitleA".toList, []⟩],
      deletedListIds := ["B".toList],
      state := [⟨"A".toList, "TitleA".toList, []⟩],
      lastSynced := [⟨"A".toList, "TitleA".toList, []⟩],
      caseChangedListIds := [], sortedListIds := [],
      forcedResync := false } (by rfl)

/-! ## Backoff lemmas and claim C5 -/

theorem backoffAux_attempts_length {α ε : Type} (f : Nat → Except ε α)
    (b c : ℚ) : ∀ (fuel attempt : Nat),
    ((backoffAux f b c attempt fuel).2.2).length ≤ fuel := by
  intro fuel
  induction fuel with
  | zero => intro attempt; simp [backoffAux]
  | succ n ih =>
      intro attempt
      simp only [backoffAux]
      cases hf : f attempt with
      | ok a => simp
      | error e =>
          by_cases hn : n = 0
          · subst hn; simp
          · simp only [if_neg hn, List.length_cons]
            exact Nat.succ_le_succ (ih (attempt + 1))

theorem backoffAux_attempts_ne_nil {α ε : Type} (f : Nat → Except ε α)
    (b c : ℚ) : ∀ (fuel attempt : Nat), fuel ≠ 0 →
    (backoffAux f b c attempt fuel).2.2 ≠ [] := by
  intro fuel attempt hfuel
  cases fuel with
  | zero => exact absurd rfl hfuel
  | succ n =>
      simp only [backoffAux]
      cases hf : f attempt with
      | ok a => simp
      | error e =>
          by_cases hn : n = 0
          · subst hn; simp
          · simp [if_neg hn]

theorem backoffAux_sleeps {α ε : Type} (f : Nat → Except ε α) (b c : ℚ) :
    ∀ (fuel attempt : Nat),
    (backoffAux f b c attempt fuel).2.1 =
      ((backoffAux f b c attempt fuel).2.2.dropLast).map (fun a => b * c ^ a) := by
  intro fuel
  induction fuel with
  | zero => intro attempt; simp [backoffAux]
  | succ n ih =>
      intro attempt
      simp only [backoffAux]
      cases hf : f attempt with
      | ok a => simp
      | error e =>
          by_cases hn : n = 0
          · subst hn; simp
          · simp only [if_neg hn]
            rw [List.dropLast_cons_of_ne_nil
              (backoffAux_attempts_ne_nil f b c n (attempt + 1) hn)]
            simp [ih (attempt + 1)]

/-- C5: the retry wrapper applied to the remote sync call
(`max_retries=5, base_delay=1.0, backoff_factor=3.0`) invokes the
wrapped function at most 5 times; before each retry (every attempt but
the last) it sleeps `base_delay * backoff_factor ^ attempt`; a call
failing on every attempt makes exactly the attempts `0..4`, sleeps
`1, 3, 9, 27` seconds, and re-raises the final exception; a call
succeeding immediately makes one attempt and never sleeps. -/
theorem C5_backoff_retry :
    (∀ (f : Nat → Except Str Unit),
      ((sync_with_google_keep_run f).2.2).length ≤ 5) ∧
    (∀ (f : Nat → Except Str Unit),
      (sync_with_google_keep_run f).2.1 =
        ((sync_with_google_keep_run f).2.2.dropLast).map
          (fun attempt => 1 * 3 ^ attempt)) ∧
    (∀ e : Str,
      sync_with_google_keep_run (fun _ => (.error e : Except Str Unit)) =
        (some (.error e), [1, 3, 9, 27], [0, 1, 2, 3, 4])) ∧
    (sync_with_google_keep_run (fun _ => (.ok () : Except Str Unit)) =
      (some (.ok ()), [], [0])) := by
  refine ⟨?_, ?_, ?_, ?_⟩
  · intro f
    exact backoffAux_attempts_length f 1 3 5 0
  · intro f
    exact backoffAux_sleeps f 1 3 5 0
  · intro e
    show (some (Except.error e), [1 * 3 ^ 0, 1 * 3 ^ 1, 1 * 3 ^ 2, 1 * 3 ^ 3],
        [0, 1, 2, 3, 4]) = _
    norm_num
  · rfl

/-! ## Case-transform idempotence: claim C8 -/

theorem pyUpper_idem (s : Str) : pyUpper (pyUpper s) = pyUpper s := by
  simp [pyUpper, List.map_map, Function.comp, pyCharUpper_idem]

theorem pyLower_idem (s : Str) : pyLower (pyLower s) = pyLower s := by
  simp [pyLower, List.map_map, Function.comp, pyCharLower_idem]

theorem pyCapitalize_idem (s : Str) : pyCapitalize (pyCapitalize s) = pyCapitalize s := by
  cases s with
  | nil => rfl
  | cons c rest =>
      simp [pyCapitalize, pyCharUpper_idem, List.map_map, Function.comp,
        pyCharLower_idem]

theorem pyTitleAux_idem (l : Str) :
    ∀ b, pyTitleAux b (pyTitleAux b l) = pyTitleAux b l := by
  induction l with
  | nil => intro b; rfl
  | cons c rest ih =>
      intro b
      by_cases hc : isAsciiAlpha c = true
      · cases b with
        | true =>
            simp [pyTitleAux, hc, isAsciiAlpha_pyCharLower, pyCharLower_idem, ih]
        | false =>
            simp [pyTitleAux, hc, isAsciiAlpha_pyCharUpper, pyCharUpper_idem, ih]
      · have hc' : isAsciiAlpha c = false := by simpa using hc
        simp [pyTitleAux, hc', ih]

/-- C8: for every string and every case mode, applying `change_case`
twice yields the same result as applying it once. -/
theorem C8_change_case_idempotent (x : Str) (mode : ListCase) :
    change_case (change_case x mode) mode = change_case x mode := by
  cases mode with
  | no_change => simp [change_case]
  | upper => simp [change_case, pyUpper_idem]
  | lower => simp [change_case, pyLower_idem]
  | sentence => simp [change_case, pyCapitalize_idem]
  | title => simp [change_case, pyTitle, pyTitleAux_idem]

/-! ## Sortedness lemmas and claim C6 -/

theorem is_list_sorted_eq_chain' : ∀ (items : List ListItem),
    is_list_sorted items = true ↔
      List.Chain' (fun a b => strLe (pyLower a.text) (pyLower b.text) = true) items
  | [] => by simp [is_list_sorted]
  | [a] => by simp [is_list_sorted]
  | a :: b :: rest => by
      rw [List.chain'_cons, ← is_list_sorted_eq_chain' (b :: rest)]
      simp [is_list_sorted]

theorem processFound_no_change_sorted (keep_list : KeepList)
    (h : is_list_sorted (keep_list.items.filter (fun i => !i.checked)) = true) :
    processFound true ListCase.no_change keep_list = (keep_list, false, false) := by
  simp [processFound, h]

theorem processFound_no_change_unsorted (keep_list : KeepList)
    (h : is_list_sorted (keep_list.items.filter (fun i => !i.checked)) = false) :
    processFound true ListCase.no_change keep_list =
      ({ keep_list with items := sort_items keep_list.items }, false, true) := by
  simp [processFound, h]

theorem mem_stateUpdate {state : List KeepList} {l x : KeepList}
    (hx : x ∈ stateUpdate state l) : x = l ∨ x ∈ state := by
  unfold stateUpdate at hx
  obtain ⟨y, hy, hxy⟩ := List.mem_map.mp hx
  by_cases h : (y.id == l.id) = true
  · rw [if_pos h] at hxy; exact Or.inl hxy.symm
  · rw [if_neg h] at hxy; exact Or.inr (hxy ▸ hy)

theorem syncLoop_no_sort_invariant (lid : Str) :
    ∀ (ids : List Str) (acc : LoopAcc),
      (∀ l ∈ acc.state, l.id = lid →
        is_list_sorted (l.items.filter (fun i => !i.checked)) = true) →
      lid ∉ acc.sortedListIds →
      (∀ l ∈ (ids.foldl (syncStep true ListCase.no_change) acc).state, l.id = lid →
        is_list_sorted (l.items.filter (fun i => !i.checked)) = true) ∧
      lid ∉ (ids.foldl (syncStep true ListCase.no_change) acc).sortedListIds := by
  intro ids
  induction ids with
  | nil => intro acc h1 h2; exact ⟨h1, h2⟩
  | cons i rest ih =>
      intro acc h1 h2
      simp only [List.foldl_cons]
      apply ih
      · -- the state invariant survives one step
        intro l hl hlid
        unfold syncStep at hl
        cases hget : keepGet acc.state i with
        | none => rw [hget] at hl; exact h1 l hl hlid
        | some keep_list =>
            rw [hget] at hl
            have hmem : keep_list ∈ acc.state :=
              List.mem_of_find?_eq_some hget
            rcases mem_stateUpdate hl with heq | hmem'
            · subst heq
              by_cases hs :
                  is_list_sorted (keep_list.items.filter (fun i => !i.checked)) = true
              · rw [processFound_no_change_sorted keep_list hs] at hlid ⊢
                exact h1 keep_list hmem hlid
              · have hs' := eq_false_of_ne_true hs
                rw [processFound_no_change_unsorted keep_list hs'] at hlid
                have : keep_list.id = lid := hlid
                exact absurd (h1 keep_list hmem this) hs
            · exact h1 l hmem' hlid
      · -- `lid` is never appended to the sorted-list ids
        unfold syncStep
        cases hget : keepGet acc.state i with
        | none => exact h2
        | some keep_list =>
            dsimp only
            have hmem : keep_list ∈ acc.state :=
              List.mem_of_find?_eq_some hget
            have hid : keep_list.id = i := by
              have := List.find?_some hget
              simpa using this
            by_cases hs :
                is_list_sorted (keep_list.items.filter (fun i => !i.checked)) = true
            · rw [processFound_no_change_sorted keep_list hs]
              simpa using h2
            · have hs' := eq_false_of_ne_true hs
              rw [processFound_no_change_unsorted keep_list hs']
              intro hcon
              simp only [List.mem_append] at hcon
              rcases hcon with hcon | hcon
              · exact h2 hcon
              · have hli : lid = i := by simpa using hcon
                have hkl : keep_list.id = lid := by rw [hid, hli]
                exact absurd (h1 keep_list hmem hkl) hs

theorem syncLoop_all_sorted_invariant :
    ∀ (ids : List Str) (acc : LoopAcc),
      (∀ l ∈ acc.state, is_list_sorted (l.items.filter (fun i => !i.checked)) = true) →
      (∀ l ∈ (ids.foldl (syncStep true ListCase.no_change) acc).state,
        is_list_sorted (l.items.filter (fun i => !i.checked)) = true) ∧
      (ids.foldl (syncStep true ListCase.no_change) acc).sortedListIds =
        acc.sortedListIds ∧
      (ids.foldl (syncStep true ListCase.no_change) acc).listsChanged =
        acc.listsChanged := by
  intro ids
  induction ids with
  | nil => intro acc h1; exact ⟨h1, rfl, rfl⟩
  | cons i rest ih =>
      intro acc h1
      simp only [List.foldl_cons]
      have hstep :
          (∀ l ∈ (syncStep true ListCase.no_change acc i).state,
            is_list_sorted (l.items.filter (fun i => !i.checked)) = true) ∧
          (syncStep true ListCase.no_change acc i).sortedListIds =
            acc.sortedListIds ∧
          (syncStep true ListCase.no_change acc i).listsChanged =
            acc.listsChanged := by
        unfold syncStep
        cases hget : keepGet acc.state i with
        | none => exact ⟨h1, rfl, rfl⟩
        | some keep_list =>
            dsimp only
            have hmem : keep_list ∈ acc.state :=
              List.mem_of_find?_eq_some hget
            have hs := h1 keep_list hmem
            rw [processFound_no_change_sorted keep_list hs]
            refine ⟨?_, by simp, by simp⟩
            intro l hl
            rcases mem_stateUpdate hl with heq | hmem'
            · subst heq; exact hs
            · exact h1 l hmem'
      obtain ⟨ha, hb, hc⟩ := ih (syncStep true ListCase.no_change acc i) hstep.1
      exact ⟨ha, by rw [hb, hstep.2.1], by rw [hc, hstep.2.2]⟩

/-- C6: a list whose unchecked items are already in case-insensitive
ascending order is not remotely sorted by `sync_data` (sorting enabled,
case mode `no_change`), and when every cached list is already sorted the
call performs no sort at all and no extra forced resync; moreover
`is_list_sorted` holds exactly when every adjacent pair of items
satisfies `lower(text[i]) <= lower(text[i+1])` (vacuously true for empty
and single-item lists). -/
theorem C6_sorted_lists_not_rewritten :
    (∀ (items : List ListItem),
      is_list_sorted items = true ↔
        ∀ (i : ℕ) (h : i < items.length - 1),
          strLe (pyLower (items.get ⟨i, by omega⟩).text)
            (pyLower (items.get ⟨i + 1, by omega⟩).text) = true) ∧
    (is_list_sorted [] = true ∧ ∀ x : ListItem, is_list_sorted [x] = true) ∧
    (∀ (last state : List KeepList) (ids : List Str) (lid : Str)
        (r : SyncOutcome),
      async_sync_data (.ok ()) last state ids true ListCase.no_change = .ok r →
      (∀ l ∈ state, l.id = lid →
        is_list_sorted (l.items.filter (fun i => !i.checked)) = true) →
      lid ∉ r.sortedListIds) ∧
    (∀ (last state : List KeepList) (ids : List Str) (r : SyncOutcome),
      async_sync_data (.ok ()) last state ids true ListCase.no_change = .ok r →
      (∀ l ∈ state, is_list_sorted (l.items.filter (fun i => !i.checked)) = true) →
      r.sortedListIds = [] ∧ r.forcedResync = false) := by
  refine ⟨?_, ⟨rfl, fun x => rfl⟩, ?_, ?_⟩
  · intro items
    rw [is_list_sorted_eq_chain']
    exact List.chain'_iff_get
  · intro last state ids lid r h1 h2
    unfold async_sync_data at h1
    injection h1 with h1'
    subst h1'
    exact (syncLoop_no_sort_invariant lid ids
      { state := state, syncedLists := [], deletedListIds := [],
        caseChangedListIds := [], sortedListIds := [], listsChanged := false }
      h2 (by simp)).2
  · intro last state ids r h1 h2
    unfold async_sync_data at h1
    injection h1 with h1'
    subst h1'
    obtain ⟨_, hb, hc⟩ := syncLoop_all_sorted_invariant ids
      { state := state, syncedLists := [], deletedListIds := [],
        caseChangedListIds := [], sortedListIds := [], listsChanged := false } h2
    exact ⟨hb, hc⟩

/-- Witness for C6: a concrete already-sorted two-item list is neither
sorted remotely nor does it trigger the forced resync. -/
theorem C6_sorted_lists_not_rewritten_witness :
    ("L".toList ∉ SyncOutcome.sortedListIds
        { syncedLists := [⟨"L".toList, "T".toList,
            [⟨"1".toList, "apple".toList, false⟩,
             ⟨"2".toList, "Banana".toList, false⟩]⟩],
          deletedListIds := [],
          state := [⟨"L".toList, "T".toList,
            [⟨"1".toList, "apple".toList, false⟩,
             ⟨"2".toList, "Banana".toList, false⟩]⟩],
          lastSynced := [⟨"L".toList, "T".toList,
            [⟨"1".toList, "apple".toList, false⟩,
             ⟨"2".toList, "Banana".toList, false⟩]⟩],
          caseChangedListIds := [], sortedListIds := [],
          forcedResync := false }) ∧
    SyncOutcome.sortedListIds
        { syncedLists := [⟨"L".toList, "T".toList,
            [⟨"1".toList, "apple".toList, false⟩,
             ⟨"2".toList, "Banana".toList, false⟩]⟩],
          deletedListIds := [],
          state := [⟨"L".toList, "T".toList,
            [⟨"1".toList, "apple".toList, false⟩,
             ⟨"2".toList, "Banana".toList, false⟩]⟩],
          lastSynced := [⟨"L".toList, "T".toList,
            [⟨"1".toList, "apple".toList, false⟩,
             ⟨"2".toList, "Banana".toList, false⟩]⟩],
          caseChangedListIds := [], sortedListIds := [],
          forcedResync := false } = [] ∧
    SyncOutcome.forcedResync
        { syncedLists := [⟨"L".toList, "T".toList,
            [⟨"1".toList, "apple".toList, false⟩,
             ⟨"2".toList, "Banana".toList, false⟩]⟩],
          deletedListIds := [],
          state := [⟨"L".toList, "T".toList,
            [⟨"1".toList, "apple".toList, false⟩,
             ⟨"2".toList, "Banana".toList, false⟩]⟩],
          lastSynced := [⟨"L".toList, "T".toList,
            [⟨"1".toList, "apple".toList, false⟩,
             ⟨"2".toList, "Banana".toList, false⟩]⟩],
          caseChangedListIds := [], sortedListIds := [],
          forcedResync := false } = false := by
  refine ⟨?_, ?_⟩
  · exact C6_sorted_lists_not_rewritten.2.2.1 []
      [⟨"L".toList, "T".toList,
        [⟨"1".toList, "apple".toList, false⟩,
         ⟨"2".toList, "Banana".toList, false⟩]⟩]
      ["L".toList] "L".toList _ (by rfl) (by decide)
  · exact C6_sorted_lists_not_rewritten.2.2.2 []
      [⟨"L".toList, "T".toList,
        [⟨"1".toList, "apple".toList, false⟩,
         ⟨"2".toList, "Banana".toList, false⟩]⟩]
      ["L".toList] _ (by rfl) (by decide)

/-! ## Claim C7: case+sort round trip -/

/-- The concrete list for the round-trip scenario: items
`["banana", "Apple"]`, both unchecked. -/
def rtList0 : KeepList :=
  ⟨"L".toList, "Groceries".toList,
   [⟨"1".toList, "banana".toList, false⟩, ⟨"2".toList, "Apple".toList, false⟩]⟩

/-- The list after the first `sync_data(sort=True, case=upper)` call:
upper-cased and sorted case-insensitively. -/
def rtList1 : KeepList :=
  ⟨"L".toList, "Groceries".toList,
   [⟨"2".toList, "APPLE".toList, false⟩, ⟨"1".toList, "BANANA".toList, false⟩]⟩

/-- Outcome of the first round-trip call. -/
def rtR1 : SyncOutcome :=
  { syncedLists := [rtList1], deletedListIds := [], state := [rtList1],
    lastSynced := [rtList1], caseChangedListIds := ["L".toList],
    sortedListIds := ["L".toList], forcedResync := true }

/-- C7: `sync_data(["L"], sort=True, case=upper)` on a list holding
`["banana", "Apple"]` yields items `["APPLE", "BANANA"]` in that order
(case transform first, then case-insensitive sort, with the text rewrite,
the sort call and the forced resync all performed), and a second call
with the same inputs against the now-sorted upper-cased state performs
no additional remote mutation: no text rewrite, no sort call, no forced
resync, and an unchanged list set. -/
theorem C7_case_sort_round_trip :
    async_sync_data (.ok ()) [] [rtList0] ["L".toList] true ListCase.upper =
      .ok rtR1 ∧
    rtR1.syncedLists.map (fun l => l.items.map (fun i => i.text)) =
      [["APPLE".toList, "BANANA".toList]] ∧
    async_sync_data (.ok ()) rtR1.lastSynced rtR1.state ["L".toList] true
        ListCase.upper =
      .ok { syncedLists := [rtList1], deletedListIds := [], state := [rtList1],
            lastSynced := [rtList1], caseChangedListIds := [],
            sortedListIds := [], forcedResync := false } := by
  refine ⟨?_, rfl, ?_⟩ <;> rfl

/-! ## Snapshot-diff lemmas and claim C3 -/

theorem foldl_append_if {β γ : Type} (p : β → Bool) (f : β → γ) :
    ∀ (l : List β) (acc : List γ),
      l.foldl (fun a q => if p q then a ++ [f q] else a) acc =
        acc ++ (l.filter p).map f := by
  intro l
  induction l with
  | nil => intro acc; simp
  | cons x xs ih =>
      intro acc
      simp only [List.foldl_cons, List.filter_cons]
      by_cases h : p x = true
      · rw [if_pos h, if_pos h, ih]
        simp
      · rw [if_neg h, if_neg h, ih]

/-- The per-list contribution of the snapshot diff. -/
def diffContribution (reg : Registry) (original_lists : List (Str × CoTodoList))
    (p : Str × CoTodoList) : List (Str × Option Str) :=
  match dictGet original_lists p.1 with
  | none => []
  | some original_list =>
      (p.2.items.filter (fun q => !(dictContains original_list.items q.1))).map
        (fun q => (q.2.summary, async_get_entity_id reg (listUniqueId p.1)))

theorem get_new_items_added_go (reg : Registry)
    (original_lists : List (Str × CoTodoList)) :
    ∀ (updated_lists : List (Str × CoTodoList)) (acc : List (Str × Option Str)),
      updated_lists.foldl (fun acc p =>
        match dictGet original_lists p.1 with
        | none => acc
        | some original_list =>
            p.2.items.foldl (fun acc2 q =>
              if !(dictContains original_list.items q.1) then
                acc2 ++ [(q.2.summary, async_get_entity_id reg (listUniqueId p.1))]
              else acc2) acc) acc =
      acc ++ (updated_lists.map (diffContribution reg original_lists)).flatten := by
  intro updated_lists
  induction updated_lists with
  | nil => intro acc; simp
  | cons x xs ih =>
      intro acc
      simp only [List.foldl_cons, List.map_cons, List.flatten_cons]
      cases hget : dictGet original_lists x.1 with
      | none =>
          rw [ih]
          simp [diffContribution, hget]
      | some original_list =>
          simp only [hget]
          rw [foldl_append_if
            (fun q => !(dictContains original_list.items q.1))
            (fun q => (q.2.summary, async_get_entity_id reg (listUniqueId x.1)))
            x.2.items acc, ih]
          simp [diffContribution, hget]

theorem get_new_items_added_spec (reg : Registry)
    (orig upd : List (Str × CoTodoList)) :
    get_new_items_added reg orig upd =
      (upd.map (diffContribution reg orig)).flatten := by
  unfold get_new_items_added
  rw [get_new_items_added_go]
  simp

theorem dictContains_eq_isSome {α : Type} (d : List (Str × α)) (k : Str) :
    dictContains d k = (dictGet d k).isSome := by
  induction d with
  | nil => rfl
  | cons x xs ih =>
      unfold dictContains dictGet at *
      simp only [List.any_cons, List.find?]
      cases h : (x.1 == k) with
      | true => simp
      | false => simpa using ih

theorem dictContains_of_mem {α : Type} {d : List (Str × α)} {q : Str × α}
    (h : q ∈ d) : dictContains d q.1 = true := by
  unfold dictContains
  rw [List.any_eq_true]
  exact ⟨q, h, by simp⟩

theorem dictGet_of_nodup {α : Type} :
    ∀ (d : List (Str × α)), (d.map Prod.fst).Nodup →
      ∀ p ∈ d, dictGet d p.1 = some p.2 := by
  intro d
  induction d with
  | nil => intro _ p hp; cases hp
  | cons x xs ih =>
      intro hnd p hp
      simp only [List.map_cons, List.nodup_cons] at hnd
      rcases List.mem_cons.mp hp with heq | hp'
      · subst heq
        unfold dictGet
        simp [List.find?]
      · have hne : (x.1 == p.1) = false := by
          apply Bool.not_eq_true _ |>.mp
          intro hbe
          have hxp : x.1 = p.1 := by simpa using hbe
          exact hnd.1 (hxp ▸ List.mem_map_of_mem Prod.fst hp')
        unfold dictGet
        simp only [List.find?, hne]
        exact ih hnd.2 p hp'

/-- C3: the snapshot diff emits exactly one new-item record per item id
present in a list of the after-snapshot but absent from the same list of
the before-snapshot, each carrying that item's summary and the looked-up
entity id (the per-list contributions, concatenated in order); lists
absent from the before-snapshot contribute nothing; diffing two
identical snapshots yields no records; on the concrete spec example
(`{list1: {item1}}` before, `{list1: {item1, item2}}` after) exactly one
record is produced, for item2, referencing list1's entity id. -/
theorem C3_snapshot_diff :
    (∀ (reg : Registry) (orig upd : List (Str × CoTodoList)),
      get_new_items_added reg orig upd =
        (upd.map (diffContribution reg orig)).flatten) ∧
    (∀ (reg : Registry) (orig upd : List (Str × CoTodoList)),
      (∀ p ∈ upd, dictContains orig p.1 = false) →
      get_new_items_added reg orig upd = []) ∧
    (∀ (reg : Registry) (d : List (Str × CoTodoList)),
      (d.map Prod.fst).Nodup → get_new_items_added reg d d = []) ∧
    (get_new_items_added
        [⟨listUniqueId "list1".toList, "todo.gk1".toList, none, none⟩]
        [("list1".toList,
          ⟨"GList".toList, [("item1".toList, ⟨"milk".toList, false⟩)]⟩)]
        [("list1".toList,
          ⟨"GList".toList, [("item1".toList, ⟨"milk".toList, false⟩),
            ("item2".toList, ⟨"eggs".toList, false⟩)]⟩)] =
      [("eggs".toList, some "todo.gk1".toList)]) := by
  refine ⟨get_new_items_added_spec, ?_, ?_, by rfl⟩
  · intro reg orig upd h
    rw [get_new_items_added_spec]
    rw [List.flatten_eq_nil_iff]
    intro l hl
    obtain ⟨p, hp, hpl⟩ := List.mem_map.mp hl
    have hnone : dictGet orig p.1 = none := by
      have := dictContains_eq_isSome orig p.1
      rw [h p hp] at this
      exact Option.not_isSome_iff_eq_none.mp (by simp [← this])
    rw [← hpl]
    simp [diffContribution, hnone]
  · intro reg d hnd
    rw [get_new_items_added_spec]
    rw [List.flatten_eq_nil_iff]
    intro l hl
    obtain ⟨p, hp, hpl⟩ := List.mem_map.mp hl
    have hsome : dictGet d p.1 = some p.2 := dictGet_of_nodup d hnd p hp
    rw [← hpl]
    simp only [diffContribution, hsome]
    have hfil : p.2.items.filter
        (fun q => !(dictContains p.2.items q.1)) = [] := by
      rw [List.filter_eq_nil_iff]
      intro q hq
      simp [dictContains_of_mem hq]
    rw [hfil]
    rfl

/-- Witness for C3: the no-common-list and identical-snapshot parts
evaluated on concrete snapshots. -/
theorem C3_snapshot_diff_witness :
    get_new_items_added []
        [("a".toList, ⟨"A".toList, []⟩)]
        [("b".toList, ⟨"B".toList,
          [("i".toList, ⟨"x".toList, false⟩)]⟩)] = [] ∧
    get_new_items_added []
        [("a".toList, ⟨"A".toList, [("i".toList, ⟨"x".toList, false⟩)]⟩)]
        [("a".toList, ⟨"A".toList, [("i".toList, ⟨"x".toList, false⟩)]⟩)] = [] := by
  constructor
  · exact C3_snapshot_diff.2.1 []
      [("a".toList, ⟨"A".toList, []⟩)]
      [("b".toList, ⟨"B".toList, [("i".toList, ⟨"x".toList, false⟩)]⟩)]
      (by decide)
  · exact C3_snapshot_diff.2.2.1 []
      [("a".toList, ⟨"A".toList, [("i".toList, ⟨"x".toList, false⟩)]⟩)]
      (by decide)

/-! ## Claim C9: entity-projection mutations -/

/-- C9: each entity-projection mutation (create item, update item,
delete items) never propagates an exception from the underlying API
mutation to its caller, logs the error on the failing path, and
unconditionally requests a coordinator refresh as its final action —
also when the mutation raised. -/
theorem C9_mutations_swallow_log_refresh :
    (∀ r : Except Str Unit,
      (entity_update_todo_item r).1 = Except.ok () ∧
      ((entity_update_todo_item r).2).getLast? = some EntityAction.refresh ∧
      (∀ e : Str, r = .error e →
        EntityAction.logError ∈ (entity_update_todo_item r).2)) ∧
    (∀ r : Except Str Unit,
      (entity_create_todo_item r).1 = Except.ok () ∧
      ((entity_create_todo_item r).2).getLast? = some EntityAction.refresh ∧
      (∀ e : Str, r = .error e →
        EntityAction.logError ∈ (entity_create_todo_item r).2)) ∧
    (∀ (uids : List Str) (f : Str → Except Str Unit),
      (entity_delete_todo_items uids f).1 = Except.ok () ∧
      ((entity_delete_todo_items uids f).2).getLast? =
        some EntityAction.refresh ∧
      (∀ u ∈ uids, ∀ e : Str, f u = .error e →
        EntityAction.logError ∈ (entity_delete_todo_items uids f).2)) := by
  refine ⟨?_, ?_, ?_⟩
  · intro r
    refine ⟨rfl, ?_, ?_⟩
    · cases r <;> simp [entity_update_todo_item, List.getLast?_concat]
    · intro e he
      subst he
      simp [entity_update_todo_item]
  · intro r
    refine ⟨rfl, ?_, ?_⟩
    · cases r <;> simp [entity_create_todo_item, List.getLast?_concat]
    · intro e he
      subst he
      simp [entity_create_todo_item]
  · intro uids f
    refine ⟨rfl, ?_, ?_⟩
    · simp [entity_delete_todo_items, List.getLast?_concat]
    · intro u hu e he
      simp only [entity_delete_todo_items, List.mem_append]
      left
      rw [List.mem_flatten]
      refine ⟨[EntityAction.apiMutation, EntityAction.logError], ?_, by simp⟩
      have hmem := List.mem_map_of_mem
        (fun u => match f u with
          | Except.ok _ => [EntityAction.apiMutation]
          | Except.error _ => [EntityAction.apiMutation, EntityAction.logError]) hu
      simpa [he] using hmem


/-- Witness for C9: a concrete failing mutation on each operation is
logged, swallowed, and followed by the refresh request. -/
theorem C9_mutations_swallow_log_refresh_witness :
    (entity_update_todo_item (.error "x".toList)).1 = Except.ok () ∧
    EntityAction.logError ∈ (entity_update_todo_item (.error "x".toList)).2 ∧
    EntityAction.logError ∈ (entity_create_todo_item (.error "x".toList)).2 ∧
    EntityAction.logError ∈
      (entity_delete_todo_items ["u".toList] (fun _ => .error "x".toList)).2 ∧
    ((entity_delete_todo_items ["u".toList]
      (fun _ => .error "x".toList)).2).getLast? = some EntityAction.refresh := by
  refine ⟨(C9_mutations_swallow_log_refresh.1 (.error "x".toList)).1,
    (C9_mutations_swallow_log_refresh.1 (.error "x".toList)).2.2 "x".toList rfl,
    (C9_mutations_swallow_log_refresh.2.1 (.error "x".toList)).2.2 "x".toList rfl,
    (C9_mutations_swallow_log_refresh.2.2 ["u".toList]
      (fun _ => .error "x".toList)).2.2 "u".toList (by decide) "x".toList rfl,
    (C9_mutations_swallow_log_refresh.2.2 ["u".toList]
      (fun _ => .error "x".toList)).2.1⟩

/-! ## Claim C10: the api item-update checked guard -/

theorem keepGet_stateUpdate_found {state : List KeepList} {lid : Str}
    {kl : KeepList} (h : keepGet state lid = some kl) (l : KeepList)
    (hid : l.id = kl.id) :
    keepGet (stateUpdate state l) lid = some l := by
  rw [keepGet_stateUpdate, h]
  simp [hid]

theorem updateItems_find? (item_id : Str) (nt : Option Str) (ck : Option Bool) :
    ∀ (items : List ListItem) (it : ListItem),
      items.find? (fun i => i.id == item_id) = some it →
      ∃ it', (updateItems item_id nt ck items).find?
          (fun i => i.id == item_id) = some it' ∧
        it'.id = it.id ∧ it'.text = nt.getD it.text ∧
        it'.checked = ck.getD it.checked := by
  intro items
  induction items with
  | nil => intro it h; simp [List.find?] at h
  | cons x xs ih =>
      intro it h
      unfold updateItems
      by_cases hx : (x.id == item_id) = true
      · rw [if_pos hx]
        have hxit : x = it := by
          simp only [List.find?, hx, Option.some.injEq] at h
          exact h
        subst hxit
        cases nt with
        | none =>
            cases ck with
            | none =>
                exact ⟨x, by simp [List.find?, hx], rfl, rfl, rfl⟩
            | some b =>
                exact ⟨⟨x.id, x.text, b⟩, by simp [List.find?, hx], rfl, rfl, rfl⟩
        | some t =>
            cases ck with
            | none =>
                exact ⟨⟨x.id, t, x.checked⟩, by simp [List.find?, hx], rfl, rfl, rfl⟩
            | some b =>
                exact ⟨⟨x.id, t, b⟩, by simp [List.find?, hx], rfl, rfl, rfl⟩
      · have hx' : (x.id == item_id) = false := by simpa using hx
        rw [if_neg hx]
        have h' : xs.find? (fun i => i.id == item_id) = some it := by
          simpa [List.find?, hx'] using h
        obtain ⟨it', h1, h2, h3, h4⟩ := ih it h'
        refine ⟨it', ?_, h2, h3, h4⟩
        simpa [List.find?, hx'] using h1

/-- C10: in the Session Client's `async_update_todo_item`, whenever the
list and the item exist, the item's `checked` flag is overwritten with
the value of the `checked` parameter — the `checked is not None` guard
is always satisfied for `bool`-typed calls (default `False`), so a call
supplying only new text also resets `checked` to `False`. -/
theorem C10_update_item_checked_always_overwritten :
    ∀ (state : List KeepList) (list_id item_id : Str) (new_text : Option Str)
      (b : Bool) (kl : KeepList) (it : ListItem),
      keepGet state list_id = some kl →
      kl.items.find? (fun i => i.id == item_id) = some it →
      ((some b : Option Bool).isSome = true) ∧
      ∃ kl' it',
        keepGet (api_async_update_todo_item state list_id item_id new_text
          (some b)) list_id = some kl' ∧
        kl'.items.find? (fun i => i.id == item_id) = some it' ∧
        it'.checked = b ∧ it'.id = it.id ∧
        it'.text = new_text.getD it.text := by
  intro state list_id item_id new_text b kl it hget hfind
  refine ⟨rfl, ?_⟩
  unfold api_async_update_todo_item
  rw [hget]
  obtain ⟨it', h1, h2, h3, h4⟩ := updateItems_find? item_id new_text (some b)
    kl.items it hfind
  exact ⟨{ kl with items := updateItems item_id new_text (some b) kl.items },
    it', keepGet_stateUpdate_found hget _ rfl, h1, h4, h2, h3⟩

/-- Witness for C10: a concrete call supplying only new text resets a
previously checked item to unchecked. -/
theorem C10_update_item_checked_always_overwritten_witness :
    ((some false : Option Bool).isSome = true) ∧
    ∃ kl' it',
      keepGet (api_async_update_todo_item
        [⟨"L".toList, "T".toList, [⟨"i".toList, "old".toList, true⟩]⟩]
        "L".toList "i".toList (some "new".toList) (some false))
        "L".toList = some kl' ∧
      kl'.items.find? (fun i => i.id == "i".toList) = some it' ∧
      it'.checked = false ∧ it'.id = ListItem.id ⟨"i".toList, "old".toList, true⟩ ∧
      it'.text = (some "new".toList : Option Str).getD
        (ListItem.text ⟨"i".toList, "old".toList, true⟩) :=
  C10_update_item_checked_always_overwritten
    [⟨"L".toList, "T".toList, [⟨"i".toList, "old".toList, true⟩]⟩]
    "L".toList "i".toList (some "new".toList) false
    ⟨"L".toList, "T".toList, [⟨"i".toList, "old".toList, true⟩]⟩
    ⟨"i".toList, "old".toList, true⟩ (by rfl) (by rfl)

/-! ## Claim C4: the user-rename latch -/

theorem async_update_entity_get (reg : Registry) (eid' n eid : Str) :
    async_get_entity (async_update_entity_original_name reg eid' n) eid =
      (async_get_entity reg eid).map (fun y =>
        if y.entityId == eid' then { y with originalName := some n } else y) := by
  unfold async_get_entity async_update_entity_original_name
  apply find?_map_comm
  intro x
  by_cases h : (x.entityId == eid') = true
  · rw [if_pos h]
  · rw [if_neg h]

theorem update_entity_names_step_preserves (listPfx : Str)
    (st : NameUpdateState) (gl : KeepList) {eid : Str} {e : RegistryEntry}
    (h : async_get_entity st.reg eid = some e)
    (ht : nameTruthy e.name = true) :
    async_get_entity (update_entity_names_step listPfx st gl).reg eid = some e := by
  have heid : e.entityId = eid := by
    have := List.find?_some h
    simpa using this
  unfold update_entity_names_step
  cases hid : async_get_entity_id st.reg (listUniqueId gl.id) with
  | none => exact h
  | some entity_id =>
      dsimp only
      by_cases hnil : (entity_id == ([] : Str)) = true
      · rw [if_pos hnil]; exact h
      · rw [if_neg hnil]
        cases hent : async_get_entity st.reg entity_id with
        | none => exact h
        | some entity =>
            dsimp only
            by_cases htr : nameTruthy entity.name = true
            · rw [if_pos htr]; exact h
            · rw [if_neg htr]
              by_cases hb : (!(entity.originalName ==
                  some (pyStrip (listPfx ++ [' '] ++ gl.title)))) = true
              · rw [if_pos hb]
                by_cases hsame : entity_id = eid
                · subst hsame
                  rw [h] at hent
                  injection hent with hent'
                  rw [← hent'] at htr
                  exact absurd ht htr
                · rw [async_update_entity_get, h]
                  have hne : (e.entityId == entity_id) = false := by
                    rw [heid]
                    simpa using fun hc => hsame hc.symm
                  simp [hne]
                  intro hc
                  rw [heid] at hc
                  exact absurd hc.symm hsame
              · rw [if_neg hb]
                exact h

theorem update_entity_names_step_mono (listPfx : Str) (st : NameUpdateState)
    (gl : KeepList) {x : Str} (hx : x ∈ st.userNamed) :
    x ∈ (update_entity_names_step listPfx st gl).userNamed := by
  unfold update_entity_names_step
  cases async_get_entity_id st.reg (listUniqueId gl.id) with
  | none => exact hx
  | some entity_id =>
      dsimp only
      by_cases hnil : (entity_id == ([] : Str)) = true
      · rw [if_pos hnil]; exact hx
      · rw [if_neg hnil]
        cases async_get_entity st.reg entity_id with
        | none => exact hx
        | some entity =>
            dsimp only
            by_cases htr : nameTruthy entity.name = true
            · rw [if_pos htr]
              by_cases hmem : entity_id ∈ st.userNamed
              · simpa [hmem] using hx
              · simp only [if_neg hmem]
                exact List.mem_append_left _ hx
            · rw [if_neg htr]
              by_cases hb : (!(entity.originalName ==
                  some (pyStrip (listPfx ++ [' '] ++ gl.title)))) = true
              · rw [if_pos hb]; exact hx
              · rw [if_neg hb]; exact hx

/-- C4 counterexample: the claim that a latched entity's display name is
never auto-updated on any later tick "regardless of later changes to the
entity's name field" is false.  Tick 1: the entity has a user-set name,
so it is latched into `_user_named_entities` and left alone.  The name
field is then cleared externally.  Tick 2 (the latch set still contains
the entity): the code re-checks only the live `name` field, so it
auto-updates `original_name` to the new remote title — the display name
changes on a later tick despite the latch. -/
theorem C4_user_rename_latch_counterexample :
    (update_entity_names []
      [⟨listUniqueId "L".toList, "todo.x".toList,
        some "Custom".toList, some "Old".toList⟩]
      [] [⟨"L".toList, "Old".toList, []⟩]).userNamed = ["todo.x".toList] ∧
    (update_entity_names []
      [⟨listUniqueId "L".toList, "todo.x".toList,
        some "Custom".toList, some "Old".toList⟩]
      [] [⟨"L".toList, "Old".toList, []⟩]).reg =
      [⟨listUniqueId "L".toList, "todo.x".toList,
        some "Custom".toList, some "Old".toList⟩] ∧
    (update_entity_names []
      [⟨listUniqueId "L".toList, "todo.x".toList, none, some "Old".toList⟩]
      ["todo.x".toList] [⟨"L".toList, "NewTitle".toList, []⟩]).reg =
      [⟨listUniqueId "L".toList, "todo.x".toList,
        none, some "NewTitle".toList⟩] := by
  refine ⟨by rfl, by rfl, by rfl⟩

/-- C4 (amended): once an entity's name is detected as user-overridden it
is remembered for the coordinator's lifetime (the latch set only grows),
and an entity whose name field is currently set is never auto-updated by
a name-update pass; but the override test is re-run against the live
name field each tick, so the latch alone does not prevent updates after
the name field is cleared (see the counterexample). -/
theorem C4_user_rename_latch_amended :
    (∀ (listPfx : Str) (reg : Registry) (userNamed : List Str)
        (ls : List KeepList) (x : Str),
      x ∈ userNamed → x ∈ (update_entity_names listPfx reg userNamed ls).userNamed) ∧
    (∀ (listPfx : Str) (reg : Registry) (userNamed : List Str)
        (ls : List KeepList) (eid : Str) (e : RegistryEntry),
      async_get_entity reg eid = some e → nameTruthy e.name = true →
      async_get_entity (update_entity_names listPfx reg userNamed ls).reg eid =
        some e) := by
  constructor
  · intro listPfx reg userNamed ls
    unfold update_entity_names
    induction ls generalizing reg userNamed with
    | nil => intro x hx; exact hx
    | cons gl rest ih =>
        intro x hx
        simp only [List.foldl_cons]
        have hstep := update_entity_names_step_mono listPfx ⟨reg, userNamed⟩ gl hx
        exact ih (update_entity_names_step listPfx ⟨reg, userNamed⟩ gl).reg
          (update_entity_names_step listPfx ⟨reg, userNamed⟩ gl).userNamed x hstep
  · intro listPfx reg userNamed ls
    unfold update_entity_names
    induction ls generalizing reg userNamed with
    | nil => intro eid e h ht; exact h
    | cons gl rest ih =>
        intro eid e h ht
        simp only [List.foldl_cons]
        have hstep := update_entity_names_step_preserves listPfx ⟨reg, userNamed⟩
          gl h ht
        exact ih (update_entity_names_step listPfx ⟨reg, userNamed⟩ gl).reg
          (update_entity_names_step listPfx ⟨reg, userNamed⟩ gl).userNamed
          eid e hstep ht

/-- Witness for C4 (amended): on a concrete two-list pass, a previously
latched entity id stays latched and a user-named entity's registry entry
is untouched. -/
theorem C4_user_rename_latch_amended_witness :
    "todo.x".toList ∈ (update_entity_names []
      [⟨listUniqueId "L".toList, "todo.x".toList,
        some "Custom".toList, some "Old".toList⟩]
      ["todo.x".toList] [⟨"L".toList, "NewTitle".toList, []⟩]).userNamed ∧
    async_get_entity (update_entity_names []
      [⟨listUniqueId "L".toList, "todo.x".toList,
        some "Custom".toList, some "Old".toList⟩]
      ["todo.x".toList] [⟨"L".toList, "NewTitle".toList, []⟩]).reg
      "todo.x".toList =
      some ⟨listUniqueId "L".toList, "todo.x".toList,
        some "Custom".toList, some "Old".toList⟩ := by
  constructor
  · exact C4_user_rename_latch_amended.1 []
      [⟨listUniqueId "L".toList, "todo.x".toList,
        some "Custom".toList, some "Old".toList⟩]
      ["todo.x".toList] [⟨"L".toList, "NewTitle".toList, []⟩]
      "todo.x".toList (by decide)
  · exact C4_user_rename_latch_amended.2 []
      [⟨listUniqueId "L".toList, "todo.x".toList,
        some "Custom".toList, some "Old".toList⟩]
      ["todo.x".toList] [⟨"L".toList, "NewTitle".toList, []⟩]
      "todo.x".toList
      ⟨listUniqueId "L".toList, "todo.x".toList,
        some "Custom".toList, some "Old".toList⟩ (by rfl) (by decide)
